import Mathlib

/-!
Verification of the typed-allocation facade in `enmem.h`.

The C functions `ennewa_`, `enrealloc_`, `enresize_`, the `enfree` and
`ennewa0` macros, and the manual overflow check (the non-builtin branch,
guarded by `!defined(EN_MUL_OVERFLOW)`) are embedded as pure Lean
functions.  The raw allocator (malloc/calloc/realloc) is modelled as an
oracle `RawAlloc` giving the pointer each raw call returns, and every
facade operation returns, besides the resulting pointer, the value it
wrote to `errno` (if any) and the ordered list of raw allocator and
deallocator calls it issued.  Pointers are `Option Nat`: `none` is C's
`NULL`.  `size_t` values are natural numbers bounded by `SIZE_MAX bytes`
where `bytes` is `sizeof(size_t)`; the C multiplication
`size * nmemb` is modelled as multiplication modulo `2 ^ (8 * bytes)`.
-/

namespace Enmem

/-- A C pointer: `none` is `NULL`, `some a` a non-null address. -/
abbrev Ptr := Option Nat

/-- One call into the raw allocator / deallocator, with its arguments. -/
inductive RawCall where
  | malloc (allocSize : Nat)
  | calloc (nmemb objSize : Nat)
  | realloc (ptr : Ptr) (allocSize : Nat)
  | free (ptr : Ptr)
deriving DecidableEq, Repr

/-- The raw allocator's behavior: what `EN_MALLOC`, `EN_CALLOC` and
`EN_REALLOC` return for given arguments (`none` = allocation failure). -/
structure RawAlloc where
  mallocRet : Nat → Ptr
  callocRet : Nat → Nat → Ptr
  reallocRet : Ptr → Nat → Ptr

/-- Outcome of one facade operation: the pointer it returns, the errno
value the facade itself wrote (`none` if it left errno untouched), and
the raw calls it made, in order. -/
structure EnResult where
  ret : Ptr
  errnoSet : Option Nat
  calls : List RawCall
deriving DecidableEq, Repr

/-- The errno value `ENOMEM` (its concrete number is irrelevant). -/
def ENOMEM : Nat := 12

/-- `SIZE_MAX` for a platform whose `size_t` is `bytes` bytes wide. -/
def SIZE_MAX (bytes : Nat) : Nat := 2 ^ (8 * bytes) - 1

/-- `#define EN_NO_OVERFLOW (((size_t) 1) << (sizeof(size_t) * 4))`. -/
def EN_NO_OVERFLOW (bytes : Nat) : Nat := 1 <<< (bytes * 4)

/-- The manual overflow test of `ennewa_` / `enrealloc_` (line 295 / 325):
`(nmemb >= EN_NO_OVERFLOW || size >= EN_NO_OVERFLOW) && (SIZE_MAX / nmemb) < size`. -/
def overflowCheck (bytes size nmemb : Nat) : Bool :=
  (decide (nmemb ≥ EN_NO_OVERFLOW bytes) || decide (size ≥ EN_NO_OVERFLOW bytes)) &&
    decide (SIZE_MAX bytes / nmemb < size)

/-- `enfree(ptr)`: `(EN_FREE(ptr), NULL)` — pass `ptr` to the raw
deallocator and yield `NULL`. -/
def enfree (ptr : Ptr) : EnResult :=
  { ret := none, errnoSet := none, calls := [RawCall.free ptr] }

/-- `static void* ennewa_(size_t size, size_t nmemb)` (manual-check branch):
zero count returns `NULL` with no raw call; overflow sets
`errno = ENOMEM` and returns `NULL`; otherwise one `EN_MALLOC` call on
the (wrapping) product. -/
def ennewa_ (A : RawAlloc) (bytes size nmemb : Nat) : EnResult :=
  if nmemb = 0 then
    { ret := none, errnoSet := none, calls := [] }
  else if overflowCheck bytes size nmemb then
    { ret := none, errnoSet := some ENOMEM, calls := [] }
  else
    let alloc_size := size * nmemb % 2 ^ (8 * bytes)
    { ret := A.mallocRet alloc_size, errnoSet := none,
      calls := [RawCall.malloc alloc_size] }

/-- `#define ennewa0(T, nmemb) ((T*) EN_CALLOC(nmemb, sizeof(T)))`:
a direct call of the zero-filling raw allocator, with no size check. -/
def ennewa0 (A : RawAlloc) (size nmemb : Nat) : EnResult :=
  { ret := A.callocRet nmemb size, errnoSet := none,
    calls := [RawCall.calloc nmemb size] }

/-- `static void* enrealloc_(void* ptr, size_t size, size_t nmemb)`
(manual-check branch): zero count delegates to `enfree`; overflow sets
`errno = ENOMEM` and returns `NULL` with no raw call; otherwise one
`EN_REALLOC` call on the (wrapping) product. -/
def enrealloc_ (A : RawAlloc) (bytes : Nat) (ptr : Ptr) (size nmemb : Nat) : EnResult :=
  if nmemb = 0 then enfree ptr
  else if overflowCheck bytes size nmemb then
    { ret := none, errnoSet := some ENOMEM, calls := [] }
  else
    let alloc_size := size * nmemb % 2 ^ (8 * bytes)
    { ret := A.reallocRet ptr alloc_size, errnoSet := none,
      calls := [RawCall.realloc ptr alloc_size] }

/-- `static void* enresize_(void* ptr, size_t size, size_t nmemb)`:
`tmp_ = enrealloc_(ptr, size, nmemb); if (tmp_ == NULL) EN_FREE(ptr); return tmp_;`. -/
def enresize_ (A : RawAlloc) (bytes : Nat) (ptr : Ptr) (size nmemb : Nat) : EnResult :=
  let tmp := enrealloc_ A bytes ptr size nmemb
  if tmp.ret = none then
    { ret := tmp.ret, errnoSet := tmp.errnoSet,
      calls := tmp.calls ++ [RawCall.free ptr] }
  else tmp

/-- How many times an operation passed pointer `p` to the raw deallocator. -/
def freeCount (r : EnResult) (p : Ptr) : Nat :=
  (r.calls.filter (fun c => decide (c = RawCall.free p))).length

/-- Whether an operation made any raw-deallocator call at all. -/
def hasFree (r : EnResult) : Bool :=
  r.calls.any (fun c => match c with | RawCall.free _ => true | _ => false)

/-- A raw allocator for concrete evaluation: every call succeeds. -/
def okAlloc : RawAlloc where
  mallocRet := fun _ => some 100
  callocRet := fun _ _ => some 200
  reallocRet := fun _ _ => some 300

/-- A raw allocator for concrete evaluation: every call fails. -/
def failAlloc : RawAlloc where
  mallocRet := fun _ => none
  callocRet := fun _ _ => none
  reallocRet := fun _ _ => none

/-! ### Arithmetic facts about the manual overflow check -/

lemma EN_NO_OVERFLOW_eq (bytes : Nat) : EN_NO_OVERFLOW bytes = 2 ^ (4 * bytes) := by
  simp [EN_NO_OVERFLOW, Nat.shiftLeft_eq, Nat.mul_comm]

lemma EN_NO_OVERFLOW_sq (bytes : Nat) :
    EN_NO_OVERFLOW bytes * EN_NO_OVERFLOW bytes = 2 ^ (8 * bytes) := by
  rw [EN_NO_OVERFLOW_eq, ← pow_add]
  congr 1
  ring

/-- The manual check is exact: for `size_t`-representable operands with
`nmemb > 0` it reports overflow iff the true product exceeds `SIZE_MAX`. -/
lemma overflowCheck_iff (bytes size nmemb : Nat) (hn : 0 < nmemb) :
    overflowCheck bytes size nmemb = true ↔ SIZE_MAX bytes < size * nmemb := by
  unfold overflowCheck
  rw [Bool.and_eq_true, Bool.or_eq_true]
  simp only [decide_eq_true_iff]
  constructor
  · rintro ⟨-, hdiv⟩
    by_contra hle
    push_neg at hle
    have hd : size ≤ SIZE_MAX bytes / nmemb := (Nat.le_div_iff_mul_le hn).mpr hle
    omega
  · intro hlt
    have hdiv : SIZE_MAX bytes / nmemb < size := by
      by_contra hdle
      push_neg at hdle
      have := (Nat.le_div_iff_mul_le hn).mp hdle
      omega
    refine ⟨?_, hdiv⟩
    by_contra hboth
    push_neg at hboth
    obtain ⟨h1, h2⟩ := hboth
    obtain ⟨k, hk⟩ : ∃ k, EN_NO_OVERFLOW bytes = k + 1 := by
      have : 0 < EN_NO_OVERFLOW bytes := by
        rw [EN_NO_OVERFLOW_eq]
        exact pow_pos (by norm_num) _
      exact ⟨EN_NO_OVERFLOW bytes - 1, by omega⟩
    have hmul : size * nmemb ≤ k * k := Nat.mul_le_mul (by omega) (by omega)
    have hsq : (k + 1) * (k + 1) = 2 ^ (8 * bytes) := by
      rw [← hk]
      exact EN_NO_OVERFLOW_sq bytes
    have hexp : (k + 1) * (k + 1) = k * k + 2 * k + 1 := by ring
    have hfin : size * nmemb ≤ 2 ^ (8 * bytes) - 1 := by
      calc size * nmemb ≤ k * k := hmul
        _ ≤ k * k + 2 * k := Nat.le_add_right _ _
        _ = (k + 1) * (k + 1) - 1 := by rw [hexp, Nat.add_sub_cancel]
        _ = 2 ^ (8 * bytes) - 1 := by rw [hsq]
    have : SIZE_MAX bytes < size * nmemb := hlt
    rw [SIZE_MAX] at this
    exact absurd this (not_lt.mpr hfin)

/-- When the manual check reports no overflow, the wrapping product is
the true product. -/
lemma no_overflow_product (bytes size nmemb : Nat) (hn : 0 < nmemb)
    (hov : overflowCheck bytes size nmemb = false) :
    size * nmemb % 2 ^ (8 * bytes) = size * nmemb := by
  apply Nat.mod_eq_of_lt
  have hle : size * nmemb ≤ SIZE_MAX bytes := by
    by_contra hgt
    push_neg at hgt
    have := (overflowCheck_iff bytes size nmemb hn).mpr hgt
    rw [this] at hov
    exact absurd hov (by decide)
  have hpos : 0 < 2 ^ (8 * bytes) := pow_pos (by norm_num) _
  have : SIZE_MAX bytes < 2 ^ (8 * bytes) := by
    rw [SIZE_MAX]
    omega
  omega

/-! ### Claim theorems -/

/-- C1 (code bug exhibit): with a non-null block `some 1` and
`element_count = 0`, `enresize_` passes the block to the raw deallocator
twice — once inside `enrealloc_`'s zero-count path (`enfree`) and once
again in its own `tmp_ == NULL` branch — so the block is not destroyed
exactly once and the zero-count case is not distinguished from the error
case. -/
theorem enresize_double_free_on_zero_count :
    freeCount (enresize_ okAlloc 8 (some 1) 4 0) (some 1) = 2 ∧
    enresize_ okAlloc 8 (some 1) 4 0 =
      ⟨none, none, [RawCall.free (some 1), RawCall.free (some 1)]⟩ := by
  constructor <;> decide

/-- C2: for every `size_t` pair with `element_count > 0`, the manual
overflow check of the array-allocation routine reports overflow iff the
true mathematical product `size * nmemb` exceeds `SIZE_MAX`, and when it
reports no overflow the byte size `ennewa_` hands to the raw allocator is
exactly that product — including operands at the maximum representable
magnitude. -/
theorem ennewa_manual_check_exact (A : RawAlloc) (bytes size nmemb : Nat)
    (hn : 0 < nmemb) (hs : size ≤ SIZE_MAX bytes) (hm : nmemb ≤ SIZE_MAX bytes) :
    (overflowCheck bytes size nmemb = true ↔ SIZE_MAX bytes < size * nmemb) ∧
    (overflowCheck bytes size nmemb = false →
      (ennewa_ A bytes size nmemb).calls = [RawCall.malloc (size * nmemb)]) := by
  refine ⟨overflowCheck_iff bytes size nmemb hn, fun hov => ?_⟩
  simp [ennewa_, hn.ne', hov, no_overflow_product bytes size nmemb hn hov]

theorem ennewa_manual_check_exact_witness :
    0 < SIZE_MAX 8 ∧ SIZE_MAX 8 ≤ SIZE_MAX 8 ∧
    ((overflowCheck 8 (SIZE_MAX 8) (SIZE_MAX 8) = true ↔
        SIZE_MAX 8 < SIZE_MAX 8 * SIZE_MAX 8) ∧
      (overflowCheck 8 (SIZE_MAX 8) (SIZE_MAX 8) = false →
        (ennewa_ okAlloc 8 (SIZE_MAX 8) (SIZE_MAX 8)).calls =
          [RawCall.malloc (SIZE_MAX 8 * SIZE_MAX 8)])) :=
  ⟨by decide, le_refl _,
    ennewa_manual_check_exact okAlloc 8 (SIZE_MAX 8) (SIZE_MAX 8)
      (by decide) (le_refl _) (le_refl _)⟩

/-- C3: for `element_count > 0`, `enrealloc_` never passes anything to the
raw deallocator (so the existing block survives both the overflow path and
raw-reallocator failure), and on overflow it returns failure with
`errno = ENOMEM` having made no raw call at all. -/
theorem enrealloc_overflow_no_release (A : RawAlloc) (bytes : Nat) (ptr : Ptr)
    (size nmemb : Nat) (hn : 0 < nmemb) :
    hasFree (enrealloc_ A bytes ptr size nmemb) = false ∧
    (overflowCheck bytes size nmemb = true →
      enrealloc_ A bytes ptr size nmemb = ⟨none, some ENOMEM, []⟩) := by
  constructor
  · cases h : overflowCheck bytes size nmemb <;>
      simp [enrealloc_, hn.ne', h, hasFree]
  · intro hov
    simp [enrealloc_, hn.ne', hov]

theorem enrealloc_overflow_no_release_witness :
    0 < 3 ∧
    (hasFree (enrealloc_ okAlloc 8 (some 1) 4 3) = false ∧
      (overflowCheck 8 4 3 = true →
        enrealloc_ okAlloc 8 (some 1) 4 3 = ⟨none, some ENOMEM, []⟩)) :=
  ⟨by decide, enrealloc_overflow_no_release okAlloc 8 (some 1) 4 3 (by decide)⟩

/-- C4: for `element_count > 0` whose byte size overflows, `enresize_`
frees the existing block and returns failure with `errno = ENOMEM`; in
contrast, when the size is fine but the raw reallocator fails,
`enrealloc_` returns failure without any deallocator call, so its caller
still owns the block. -/
theorem enresize_overflow_frees (A : RawAlloc) (bytes : Nat) (ptr : Ptr)
    (size nmemb : Nat) (hn : 0 < nmemb) :
    (overflowCheck bytes size nmemb = true →
      enresize_ A bytes ptr size nmemb =
        ⟨none, some ENOMEM, [RawCall.free ptr]⟩) ∧
    (overflowCheck bytes size nmemb = false →
      A.reallocRet ptr (size * nmemb % 2 ^ (8 * bytes)) = none →
      (enrealloc_ A bytes ptr size nmemb).ret = none ∧
      hasFree (enrealloc_ A bytes ptr size nmemb) = false) := by
  constructor
  · intro hov
    simp [enresize_, enrealloc_, hn.ne', hov]
  · intro hov hfail
    simp [enrealloc_, hn.ne', hov, hfail, hasFree]

theorem enresize_overflow_frees_witness :
    0 < 2 ^ 32 ∧
    ((overflowCheck 8 (2 ^ 32) (2 ^ 32) = true →
       enresize_ failAlloc 8 (some 2) (2 ^ 32) (2 ^ 32) =
         ⟨none, some ENOMEM, [RawCall.free (some 2)]⟩) ∧
     (overflowCheck 8 (2 ^ 32) (2 ^ 32) = false →
       RawAlloc.reallocRet failAlloc (some 2) (2 ^ 32 * 2 ^ 32 % 2 ^ (8 * 8)) = none →
       (enrealloc_ failAlloc 8 (some 2) (2 ^ 32) (2 ^ 32)).ret = none ∧
       hasFree (enrealloc_ failAlloc 8 (some 2) (2 ^ 32) (2 ^ 32)) = false)) :=
  ⟨by decide, enresize_overflow_frees failAlloc 8 (some 2) (2 ^ 32) (2 ^ 32) (by decide)⟩

/-- C5: whenever the true product `size * nmemb` exceeds `SIZE_MAX`
(with `element_count > 0`), both `ennewa_` and `enrealloc_` set
`errno = ENOMEM`, return failure, and make no raw-allocator call. -/
theorem overflow_enomem_no_raw_call (A : RawAlloc) (bytes : Nat) (ptr : Ptr)
    (size nmemb : Nat) (hn : 0 < nmemb) (hov : SIZE_MAX bytes < size * nmemb) :
    ennewa_ A bytes size nmemb = ⟨none, some ENOMEM, []⟩ ∧
    enrealloc_ A bytes ptr size nmemb = ⟨none, some ENOMEM, []⟩ := by
  have h := (overflowCheck_iff bytes size nmemb hn).mpr hov
  exact ⟨by simp [ennewa_, hn.ne', h], by simp [enrealloc_, hn.ne', h]⟩

theorem overflow_enomem_no_raw_call_witness :
    0 < 2 ^ 32 ∧ SIZE_MAX 8 < 2 ^ 32 * 2 ^ 32 ∧
    (ennewa_ okAlloc 8 (2 ^ 32) (2 ^ 32) = ⟨none, some ENOMEM, []⟩ ∧
     enrealloc_ okAlloc 8 (some 3) (2 ^ 32) (2 ^ 32) = ⟨none, some ENOMEM, []⟩) :=
  ⟨by decide, by decide,
    overflow_enomem_no_raw_call okAlloc 8 (some 3) (2 ^ 32) (2 ^ 32)
      (by decide) (by decide)⟩

/-- C6: `ennewa_` with `element_count = 0` returns `NULL` without touching
errno and without any raw call (distinguished from failure); for every
`element_count > 0` that passes the overflow check it makes exactly one
raw-allocator call and leaves errno untouched. -/
theorem ennewa_zero_none_one_call (A : RawAlloc) (bytes size nmemb : Nat)
    (hn : 0 < nmemb) (hok : overflowCheck bytes size nmemb = false) :
    ennewa_ A bytes size 0 = ⟨none, none, []⟩ ∧
    (ennewa_ A bytes size nmemb).calls =
      [RawCall.malloc (size * nmemb % 2 ^ (8 * bytes))] ∧
    (ennewa_ A bytes size nmemb).errnoSet = none := by
  refine ⟨by simp [ennewa_], ?_, ?_⟩ <;> simp [ennewa_, hn.ne', hok]

theorem ennewa_zero_none_one_call_witness :
    0 < 5 ∧ overflowCheck 8 4 5 = false ∧
    (ennewa_ okAlloc 8 4 0 = ⟨none, none, []⟩ ∧
     (ennewa_ okAlloc 8 4 5).calls = [RawCall.malloc (4 * 5 % 2 ^ (8 * 8))] ∧
     (ennewa_ okAlloc 8 4 5).errnoSet = none) :=
  ⟨by decide, by decide, ennewa_zero_none_one_call okAlloc 8 4 5 (by decide) (by decide)⟩

/-- C7: for every existing block (null included), `enrealloc_` with
`element_count = 0` passes the block to the raw deallocator and returns
`NULL` without touching errno: shrinking to zero elements is freeing. -/
theorem enrealloc_zero_frees_returns_none (A : RawAlloc) (bytes : Nat)
    (ptr : Ptr) (size : Nat) :
    enrealloc_ A bytes ptr size 0 = ⟨none, none, [RawCall.free ptr]⟩ := by
  simp [enrealloc_, enfree]

/-- C8: for every input block, null included, `enfree` passes the block to
the raw deallocator and always yields `NULL` as its result. -/
theorem enfree_always_none (ptr : Ptr) :
    (enfree ptr).ret = none ∧ (enfree ptr).calls = [RawCall.free ptr] :=
  ⟨rfl, rfl⟩

/-- C9: `ennewa0` delegates directly to the zero-filling raw allocator
with `(nmemb, size)` and never consults the facade's overflow check: even
on a pair the check rejects (where `ennewa_` fails with `ENOMEM` and no
raw call), `ennewa0` still issues the calloc call and returns whatever
the raw allocator returns, leaving errno untouched. -/
theorem ennewa0_direct_calloc (A : RawAlloc) (bytes size nmemb : Nat)
    (hn : 0 < nmemb) (hov : overflowCheck bytes size nmemb = true) :
    ennewa0 A size nmemb =
      ⟨A.callocRet nmemb size, none, [RawCall.calloc nmemb size]⟩ ∧
    ennewa_ A bytes size nmemb = ⟨none, some ENOMEM, []⟩ :=
  ⟨rfl, by simp [ennewa_, hn.ne', hov]⟩

theorem ennewa0_direct_calloc_witness :
    0 < 2 ^ 32 ∧ overflowCheck 8 (2 ^ 32) (2 ^ 32) = true ∧
    (ennewa0 okAlloc (2 ^ 32) (2 ^ 32) =
       ⟨RawAlloc.callocRet okAlloc (2 ^ 32) (2 ^ 32), none,
         [RawCall.calloc (2 ^ 32) (2 ^ 32)]⟩ ∧
     ennewa_ okAlloc 8 (2 ^ 32) (2 ^ 32) = ⟨none, some ENOMEM, []⟩) :=
  ⟨by decide, by decide,
    ennewa0_direct_calloc okAlloc 8 (2 ^ 32) (2 ^ 32) (by decide) (by decide)⟩

/-- C10: for every input and every raw-allocator behavior, `enresize_`
returns exactly the pointer and errno effect of `enrealloc_` on the same
input; its raw-call trace is that of `enrealloc_` plus one extra
deallocator call on the old block exactly when the returned pointer is
`NULL`. -/
theorem enresize_same_value_as_enrealloc (A : RawAlloc) (bytes : Nat)
    (ptr : Ptr) (size nmemb : Nat) :
    (enresize_ A bytes ptr size nmemb).ret =
      (enrealloc_ A bytes ptr size nmemb).ret ∧
    (enresize_ A bytes ptr size nmemb).errnoSet =
      (enrealloc_ A bytes ptr size nmemb).errnoSet ∧
    (enresize_ A bytes ptr size nmemb).calls =
      (enrealloc_ A bytes ptr size nmemb).calls ++
        (if (enrealloc_ A bytes ptr size nmemb).ret = none
          then [RawCall.free ptr] else []) := by
  unfold enresize_
  by_cases h : (enrealloc_ A bytes ptr size nmemb).ret = none <;> simp [h]

end Enmem
